import Mathlib

/-! Shallow embedding of the goid package (goid.go together with the per-arch
getg routine): a library that discovers, once per process, the byte offset of
the goroutine id inside the Go runtime's private goroutine control block
("g"), validates the offset by consensus among voter goroutines, and then
dispatches goroutine-id lookups to a fast direct read or a slow
stack-parsing path.

Modelling conventions:
- A goroutine's interaction with the runtime is captured by `GEnv`:
  `stackBlob` is the text that `runtime.Stack` writes for it (already
  truncated to the 32-byte buffer that `slowGid` uses), `gNil` says whether
  `getg()` returns nil for it, and `read o` is the 64-bit value stored at
  byte offset `o` from its g pointer, `none` meaning the access faults.
- Go `int` arithmetic is modelled with unbounded `Int`; every offset that a
  run can actually touch stays far below 2^63, so wraparound never matters.
- Strings are compared character-wise; all of the text involved is ASCII,
  where Go byte indices and Lean character indices agree.
- Channels in the source only collect results of spawned goroutines, so the
  fan-out is modelled by lists of goroutine environments, one per goroutine,
  in collection order.
- `debug.SetPanicOnFault` applies only to the goroutine that calls it. A
  fault inside `findGidOffset`, which enables it, is therefore a recoverable
  panic, while a fault inside a probe goroutine of `checkGidOffset`, which
  never enables it, is a fatal crash of the process; `checkGidOffset`
  returns `Option Bool` with `none` for that crash. -/

/-- Environment of one goroutine: what the runtime primitives return for it. -/
structure GEnv where
  stackBlob : String
  gNil : Bool
  read : Int → Option Int

/-- Byte width of a goroutine id: `unsafe.Sizeof(GoID(0))`, which is 8. -/
def gidSize : Int := 8

/-- Size of the scanned window of the g control block (`gSize` = 256). -/
def gSize : Int := 256

/-- Number of probe goroutines per candidate offset (`checkCount` = 10). -/
def checkCount : Nat := 10

/-- Number of voter goroutines in `getGidOffset` (`voterCount` = 10). -/
def voterCount : Nat := 10

/-- Text header of a stack dump (the source's `goroutinePrefix` variable). -/
def goroutineHeader : String := "goroutine "

/-- Whether a character is a decimal digit, as `strconv.ParseInt` accepts in
base 10. -/
def isDigit (c : Char) : Bool := '0' ≤ c && c ≤ '9'

/-- Numeric value of a digit list, most significant digit first. -/
def digitsVal (l : List Char) : Nat :=
  l.foldl (fun acc c => acc * 10 + (c.toNat - '0'.toNat)) 0

/-- Model of `strconv.ParseInt(s, 10, 64)` on a text given as its character
list (Go strings are byte slices, and all text here is ASCII): an optional
single sign, then a nonempty run of decimal digits, with a signed 64-bit
range check; `none` models a non-nil error (empty input, bad digit, or out
of range). -/
def parseInt64 (s : List Char) : Option Int :=
  let signAndDigits : Bool × List Char :=
    match s with
    | '+' :: rest => (false, rest)
    | '-' :: rest => (true, rest)
    | l => (false, l)
  let neg := signAndDigits.1
  let ds := signAndDigits.2
  if ds = [] then none
  else if ds.all isDigit then
    let v : Int := if neg then -(digitsVal ds : Int) else (digitsVal ds : Int)
    if -(2 ^ 63) ≤ v ∧ v ≤ 2 ^ 63 - 1 then some v else none
  else none

/-- Model of `strings.TrimPrefix(blob, goroutinePrefix)` on the character
list of the text. -/
def trimHeader (blob : List Char) : List Char :=
  if goroutineHeader.toList.isPrefixOf blob then blob.drop goroutineHeader.length else blob

/-- Model of `slowGid`: trim the "goroutine " header from the stack text,
find the first space (`strings.IndexByte`), and when its index is positive
parse the text before it as a signed 64-bit integer; any failure degrades to
the sentinel 0, and no input makes this path raise an error. -/
def slowGid (blob : String) : Int :=
  let str := trimHeader blob.toList
  match str.findIdx? (fun c => c = ' ') with
  | some i => if 0 < i then (parseInt64 (str.take i)).getD 0 else 0
  | none => 0

/-- The scan loop inside `findGidOffset`: starting at `offset` and stepping
by `gidSize` while below `maxOffset`, read the stored value at each offset; a
faulting read raises the recoverable panic (`Except.error`), a value equal to
`gid` returns that offset, and exhausting the window returns -1. -/
def scan (read : Int → Option Int) (gid maxOffset offset : Int) : Except Unit Int :=
  if offset < maxOffset then
    match read offset with
    | none => .error ()
    | some v => if v = gid then .ok offset else scan read gid maxOffset (offset + gidSize)
  else .ok (-1)
termination_by (maxOffset - offset).toNat
decreasing_by simp only [gidSize]; omega

/-- The offsets at which the scan loop of `findGidOffset` performs a read of
the control block, in order (same loop as `scan`, observing the reads). -/
def scanReads (read : Int → Option Int) (gid maxOffset offset : Int) : List Int :=
  if offset < maxOffset then
    match read offset with
    | none => [offset]
    | some v =>
      if v = gid then [offset] else offset :: scanReads read gid maxOffset (offset + gidSize)
  else []
termination_by (maxOffset - offset).toNat
decreasing_by simp only [gidSize]; omega

/-- Model of `findGidOffset` including the process-wide panic-on-fault mode:
`debug.SetPanicOnFault(true)` saves the prior mode, and the deferred calls
restore it on every exit path while turning a fault panic into the result -1
via `recover`. Returns the result paired with the panic-on-fault mode in
force after the call returns. -/
def findGidOffsetFull (env : GEnv) (startOffset maxOffset : Int) (panicOnFault : Bool) :
    Int × Bool :=
  let currGid := slowGid env.stackBlob
  let oldPanicOnFault := panicOnFault
  if currGid ≠ 0 ∧ env.gNil = false then
    match scan env.read currGid maxOffset startOffset with
    | .ok r => (r, oldPanicOnFault)
    | .error _ => (-1, oldPanicOnFault)
  else (-1, oldPanicOnFault)

/-- Result of `findGidOffset`; the prior panic-on-fault mode never affects
the returned offset, so it is fixed to the Go default here. -/
def findGidOffset (env : GEnv) (startOffset maxOffset : Int) : Int :=
  (findGidOffsetFull env startOffset maxOffset false).1

/-- Offsets read from the control block during a `findGidOffset` call. -/
def findGidOffsetReads (env : GEnv) (startOffset maxOffset : Int) : List Int :=
  if slowGid env.stackBlob ≠ 0 ∧ env.gNil = false then
    scanReads env.read (slowGid env.stackBlob) maxOffset startOffset
  else []

/-- One probe goroutine of `checkGidOffset`. By Go's short-circuit `&&`, a
probe whose own slow gid is zero or whose own g is nil answers `false`
without touching memory. Otherwise the probe reads the candidate offset
from its own g and compares: `some` of the comparison result when the read
succeeds, and `none` — a fatal, process-ending crash — when it faults:
`debug.SetPanicOnFault` applies only to the goroutine that calls it, no
probe goroutine ever calls it, and without it a bad memory access is an
unrecoverable runtime error that the probe's `defer`/`recover` cannot
intercept (the `recover` would only see ordinary panics, and nothing else
in the probe body panics). -/
def probeOutcome (env : GEnv) (offset : Int) : Option Bool :=
  if slowGid env.stackBlob != 0 && !env.gNil then
    match env.read offset with
    | some v => some (v == slowGid env.stackBlob)
    | none => none
  else some false

/-- Model of `checkGidOffset`: spawn `checkCount` probe goroutines (their
environments listed in `probes`, in channel-collection order) and return
the conjunction of their verdicts; `none` models the fatal crash of the
whole process as soon as any probe's read faults — the batch then never
returns a value at all. -/
def checkGidOffset (probes : List GEnv) (offset : Int) : Option Bool :=
  match probes with
  | [] => some true
  | env :: rest =>
    match probeOutcome env offset, checkGidOffset rest offset with
    | some b, some bs => some (b && bs)
    | _, _ => none

/-- Environments backing one voter goroutine of `getGidOffset`: the voter's
own runtime environment, and for each candidate offset it validates, the
environments of the `checkCount` probe goroutines that its `checkGidOffset`
call spawns. -/
structure Voter where
  env : GEnv
  probes : Int → List GEnv

/-- Iteration bound for a voter's candidate loop. The loop's offset strictly
increases by at least `gidSize` = 8 each round and the loop stops once the
offset reaches `gSize` = 256, so starting from offset 0 the loop runs at most
32 rounds and 33 units of fuel are never exhausted (`voterLoop_fuel_stable`
makes this exact). -/
def voterFuel : Nat := 33

/-- One voter's loop in `getGidOffset`: repeatedly find the next candidate
offset in the window `[offset, gSize)`, stop when the finder reports -1,
keep the offsets approved by `checkGidOffset`, and resume the search just
past the offset that was found. `.getD false` totalises the crash case of
`checkGidOffset`: a run in which a probe faults kills the real process
before `getGidOffset` can return anything, so mapping the crash to a
failed check only adds runs, and the consensus theorems below are
properties of the returned value that hold over this larger set of runs
(the claim about the crash itself is settled separately at
`checkGidOffset_fault_crash`). -/
def voterLoop (env : GEnv) (probes : Int → List GEnv) : Nat → Int → List Int
  | 0, _ => []
  | fuel + 1, offset =>
    if offset < gSize then
      let o := findGidOffset env offset gSize
      if o = -1 then []
      else if (checkGidOffset (probes o) o).getD false then
        o :: voterLoop env probes fuel (o + gidSize)
      else voterLoop env probes fuel (o + gidSize)
    else []

/-- Candidate offsets produced by one voter, in increasing order. -/
def voterCandidates (v : Voter) : List Int :=
  voterLoop v.env v.probes voterFuel 0

/-- Tally and selection of `getGidOffset` with the iteration order of the
Go map made explicit: `order` is the sequence in which `range` visits the
keys of the tally map, a permutation of the distinct tallied offsets that
the runtime chooses unpredictably on every run. Count, across all voter
lists, how many votes each offset received, return the first visited
offset whose tally equals `voterCount`, and -1 when none qualifies. -/
def resolveOffsetOrd (lists : List (List Int)) (order : List Int) : Int :=
  match order.find? (fun o => lists.flatten.count o == voterCount) with
  | some o => o
  | none => -1

/-- The tally selection at one admissible, fixed iteration order (the
distinct tallied offsets in first-appearance order). The membership and
range theorems below do not depend on which order the runtime picks; the
dependence of the selected offset on the order is settled at
`getGidOffset_deterministic_counterexample`. -/
def resolveOffset (lists : List (List Int)) : Int :=
  resolveOffsetOrd lists lists.flatten.dedup

/-- Model of `getGidOffset` at the fixed iteration order: each of the
`voterCount` voters contributes its candidate list; the resolver tallies
them and requires unanimity. -/
def getGidOffset (vs : List Voter) : Int :=
  resolveOffset (vs.map voterCandidates)

/-- Model of `getGidOffset` with the map iteration order of its selection
loop exposed. -/
def getGidOffsetOrd (vs : List Voter) (order : List Int) : Int :=
  resolveOffsetOrd (vs.map voterCandidates) order

/-- Model of `FastGetGoIDAvailable`: the resolved offset is nonnegative. -/
def FastGetGoIDAvailable (gidOffset : Int) : Bool := gidOffset ≥ 0

/-- Model of `gidFromG`: the 64-bit value stored at `g + offset`; `none`
models the un-recovered crash when such an access faults (callers on the
fast path install no recover). -/
def gidFromG (env : GEnv) (offset : Int) : Option Int := env.read offset

/-- Model of `fastGid`: read the goroutine id at the resolved offset from
the caller's own g. -/
def fastGid (env : GEnv) (gidOffset : Int) : Option Int := gidFromG env gidOffset

/-- Model of `GetGoID`: the fast path when the resolved offset is
nonnegative, otherwise the slow path, which always yields a value. -/
def GetGoID (env : GEnv) (gidOffset : Int) : Option Int :=
  if FastGetGoIDAvailable gidOffset then fastGid env gidOffset
  else some (slowGid env.stackBlob)

/-- Process-wide mutable state of the package: the package-level variable
`gidOffset`. -/
structure ProcState where
  gidOffset : Int

/-- Package initialization: `gidOffset = getGidOffset()` runs exactly once,
during process startup, before any other operation of the package. -/
def initState (vs : List Voter) : ProcState := ⟨getGidOffset vs⟩

/-- `GetGoID` viewed as a transformer of the package state: it reads
`gidOffset` and leaves the state untouched. -/
def GetGoIDSt (env : GEnv) (s : ProcState) : Option Int × ProcState :=
  (GetGoID env s.gidOffset, s)

/-- `FastGetGoIDAvailable` viewed as a transformer of the package state. -/
def FastGetGoIDAvailableSt (s : ProcState) : Bool × ProcState :=
  (FastGetGoIDAvailable s.gidOffset, s)

/-- `fastGid` viewed as a transformer of the package state. -/
def fastGidSt (env : GEnv) (s : ProcState) : Option Int × ProcState :=
  (fastGid env s.gidOffset, s)

/-- `slowGid` viewed as a transformer of the package state (it does not read
`gidOffset` at all). -/
def slowGidSt (env : GEnv) (s : ProcState) : Int × ProcState :=
  (slowGid env.stackBlob, s)

/-- A goroutine environment whose stack text parses to goroutine id 7 and
whose control block stores 7 at offset 16 and a mismatching value
elsewhere. -/
def envA : GEnv :=
  ⟨"goroutine 7 [running]:", false, fun o => if o = 16 then some 7 else some 1⟩

/-- A goroutine environment whose slow path fails (empty stack text) and
whose every memory access faults. -/
def envB : GEnv := ⟨"", false, fun _ => none⟩

/-- A voter built from `envB`: it finds no candidate offsets at all. -/
def voterB : Voter := ⟨envB, fun _ => []⟩

/-- A goroutine environment with a healthy slow path whose every control
block access faults. -/
def envC : GEnv := ⟨"goroutine 7 [", false, fun _ => none⟩

/-- A goroutine environment whose getg returns nil. -/
def envD : GEnv := ⟨"", true, fun _ => some 0⟩

/-- A voter built from `envD`: it also finds no candidate offsets. -/
def voterD : Voter := ⟨envD, fun _ => [envA]⟩

/-- A goroutine environment whose control block stores the goroutine id 7
at both offset 0 and offset 8 and a mismatching value everywhere else,
faulting nowhere: a layout in which two fields pass every check. -/
def envE : GEnv :=
  ⟨"goroutine 7 [", false, fun o => if o = 0 ∨ o = 8 then some 7 else some 1⟩

/-- A voter built from `envE`: both offset 0 and offset 8 end up
validator-approved. -/
def voterE : Voter := ⟨envE, fun _ => List.replicate 10 envE⟩

/-- A goroutine environment whose control block stores the goroutine id 7
at offset 0 only, faulting nowhere. -/
def envF : GEnv :=
  ⟨"goroutine 7 [", false, fun o => if o = 0 then some 7 else some 1⟩

/-- A voter built from `envF`: only offset 0 is validator-approved. -/
def voterF : Voter := ⟨envF, fun _ => List.replicate 10 envF⟩

theorem scan_range (read : Int → Option Int) (gid maxOffset : Int) :
    ∀ n : Nat, ∀ offset r, (maxOffset - offset).toNat = n →
      scan read gid maxOffset offset = .ok r →
      r = -1 ∨ (∃ k : Nat, r = offset + gidSize * k ∧ r < maxOffset) := by
  intro n
  induction n using Nat.strong_induction_on with
  | _ n ih =>
    intro offset r hn hs
    rw [scan] at hs
    by_cases h : offset < maxOffset
    · simp only [if_pos h] at hs
      cases hread : read offset with
      | none => simp [hread] at hs
      | some v =>
        simp only [hread] at hs
        by_cases hv : v = gid
        · simp only [if_pos hv] at hs
          injection hs with hs
          right
          exact ⟨0, by omega, by omega⟩
        · simp only [if_neg hv] at hs
          have hlt : (maxOffset - (offset + gidSize)).toNat < n := by
            simp only [gidSize]; omega
          rcases ih _ hlt (offset + gidSize) r rfl hs with h1 | ⟨k, hk, hkm⟩
          · left; exact h1
          · right; exact ⟨k + 1, by simp only [gidSize] at hk ⊢; omega, hkm⟩
    · simp only [if_neg h] at hs
      injection hs with hs
      left
      omega

theorem scan_found (read : Int → Option Int) (gid maxOffset : Int) :
    ∀ k : Nat, ∀ offset, offset + gidSize * k < maxOffset →
      read (offset + gidSize * k) = some gid →
      (∀ j : Nat, j < k → ∃ v, read (offset + gidSize * j) = some v ∧ v ≠ gid) →
      scan read gid maxOffset offset = .ok (offset + gidSize * k) := by
  intro k
  induction k with
  | zero =>
    intro offset hlt hread _
    simp only [gidSize, Nat.cast_zero, mul_zero, add_zero] at hlt hread ⊢
    rw [scan, if_pos hlt, hread]
    dsimp only
    rw [if_pos rfl]
  | succ k ih =>
    intro offset hlt hread hprev
    obtain ⟨v, hv, hvne⟩ := hprev 0 (Nat.succ_pos k)
    simp only [Nat.cast_zero, mul_zero, add_zero] at hv
    have hlt0 : offset < maxOffset := by
      have : (0 : Int) ≤ gidSize * (k + 1 : Nat) := by
        simp only [gidSize]; positivity
      omega
    rw [scan, if_pos hlt0, hv]
    dsimp only
    rw [if_neg hvne]
    have heq : offset + gidSize + gidSize * (k : Nat) = offset + gidSize * (k + 1 : Nat) := by
      push_cast
      ring
    rw [show offset + gidSize * ((k : Nat) + 1 : Nat) = offset + gidSize + gidSize * (k : Nat) by
      push_cast; ring]
    apply ih
    · rw [heq]
      exact_mod_cast hlt
    · rw [heq]
      exact_mod_cast hread
    · intro j hj
      have hje : offset + gidSize + gidSize * (j : Nat) = offset + gidSize * (j + 1 : Nat) := by
        push_cast; ring
      rw [hje]
      exact_mod_cast hprev (j + 1) (by omega)

theorem scan_not_found (read : Int → Option Int) (gid maxOffset : Int) :
    ∀ n : Nat, ∀ offset, (maxOffset - offset).toNat = n →
      (∀ k : Nat, offset + gidSize * k < maxOffset →
        ∃ v, read (offset + gidSize * k) = some v ∧ v ≠ gid) →
      scan read gid maxOffset offset = .ok (-1) := by
  intro n
  induction n using Nat.strong_induction_on with
  | _ n ih =>
    intro offset hn hall
    rw [scan]
    by_cases h : offset < maxOffset
    · rw [if_pos h]
      obtain ⟨v, hv, hvne⟩ := hall 0 (by simpa using h)
      simp only [Nat.cast_zero, mul_zero, add_zero] at hv
      rw [hv]
      dsimp only
      rw [if_neg hvne]
      apply ih (maxOffset - (offset + gidSize)).toNat (by simp only [gidSize]; omega) _ rfl
      intro k hk
      have hke : offset + gidSize + gidSize * (k : Nat) = offset + gidSize * (k + 1 : Nat) := by
        push_cast; ring
      rw [hke]
      exact hall (k + 1) (by rw [← hke]; exact hk)
    · rw [if_neg h]

theorem findGidOffset_guard_neg (env : GEnv) (startOffset maxOffset : Int)
    (h : slowGid env.stackBlob = 0 ∨ env.gNil = true) :
    findGidOffset env startOffset maxOffset = -1 := by
  unfold findGidOffset findGidOffsetFull
  rcases h with h | h
  · simp [h]
  · simp [h]

theorem findGidOffset_guard_pos (env : GEnv) (startOffset maxOffset : Int)
    (h1 : slowGid env.stackBlob ≠ 0) (h2 : env.gNil = false) :
    findGidOffset env startOffset maxOffset =
      match scan env.read (slowGid env.stackBlob) maxOffset startOffset with
      | .ok r => r
      | .error _ => -1 := by
  unfold findGidOffset findGidOffsetFull
  rw [if_pos ⟨h1, h2⟩]
  cases scan env.read (slowGid env.stackBlob) maxOffset startOffset <;> rfl

/-- C3: `findGidOffset` reports -1 when the slow-path id is 0 or the g
reference is nil; otherwise, absent a fault, it returns the smallest offset
in the progression startOffset, startOffset+8, ... strictly below maxOffset
whose stored 64-bit value equals the slow-path id, and -1 when no offset of
the window matches. -/
theorem findGidOffset_spec (env : GEnv) (startOffset maxOffset : Int) :
    ((slowGid env.stackBlob = 0 ∨ env.gNil = true) →
      findGidOffset env startOffset maxOffset = -1)
    ∧ (slowGid env.stackBlob ≠ 0 → env.gNil = false →
        ((∀ k : Nat, startOffset + gidSize * k < maxOffset →
            ∃ v, env.read (startOffset + gidSize * k) = some v ∧ v ≠ slowGid env.stackBlob) →
          findGidOffset env startOffset maxOffset = -1)
        ∧ (∀ k : Nat, startOffset + gidSize * k < maxOffset →
            env.read (startOffset + gidSize * k) = some (slowGid env.stackBlob) →
            (∀ j : Nat, j < k →
              ∃ v, env.read (startOffset + gidSize * j) = some v ∧ v ≠ slowGid env.stackBlob) →
            findGidOffset env startOffset maxOffset = startOffset + gidSize * k)) := by
  refine ⟨findGidOffset_guard_neg env startOffset maxOffset, fun h1 h2 => ⟨?_, ?_⟩⟩
  · intro hall
    rw [findGidOffset_guard_pos env startOffset maxOffset h1 h2,
      scan_not_found env.read (slowGid env.stackBlob) maxOffset
        (maxOffset - startOffset).toNat startOffset rfl hall]
  · intro k hk hread hprev
    rw [findGidOffset_guard_pos env startOffset maxOffset h1 h2,
      scan_found env.read (slowGid env.stackBlob) maxOffset k startOffset hk hread hprev]

theorem findGidOffset_spec_witness :
    findGidOffset envA 0 gSize = 0 + gidSize * (2 : Nat) := by
  apply ((findGidOffset_spec envA 0 gSize).2 (by decide) (by decide)).2 2 (by decide) (by decide)
  intro j hj
  refine ⟨1, ?_, by decide⟩
  interval_cases j <;> decide

/-- C9: a window whose lower bound is at least its upper bound yields -1
without a single read of the control block. -/
theorem findGidOffset_emptyWindow (env : GEnv) (startOffset maxOffset : Int)
    (h : maxOffset ≤ startOffset) :
    findGidOffset env startOffset maxOffset = -1 ∧
      findGidOffsetReads env startOffset maxOffset = [] := by
  constructor
  · by_cases h1 : slowGid env.stackBlob ≠ 0 ∧ env.gNil = false
    · unfold findGidOffset findGidOffsetFull
      rw [if_pos h1, scan, if_neg (not_lt.mpr h)]
    · unfold findGidOffset findGidOffsetFull
      rw [if_neg h1]
  · by_cases h1 : slowGid env.stackBlob ≠ 0 ∧ env.gNil = false
    · unfold findGidOffsetReads
      rw [if_pos h1, scanReads, if_neg (not_lt.mpr h)]
    · unfold findGidOffsetReads
      rw [if_neg h1]

theorem findGidOffset_emptyWindow_witness :
    (9 : Int) ≤ 10 ∧
      (findGidOffset envA 10 9 = -1 ∧ findGidOffsetReads envA 10 9 = []) :=
  ⟨by decide, findGidOffset_emptyWindow envA 10 9 (by decide)⟩

/-- C4: a fault during the scan is caught inside `findGidOffset`, which then
returns -1, and on every exit path the panic-on-fault mode in force after
the call equals the mode that was in force before it. -/
theorem findGidOffset_faultSafe (env : GEnv) (startOffset maxOffset : Int) (panicOnFault : Bool) :
    (findGidOffsetFull env startOffset maxOffset panicOnFault).2 = panicOnFault ∧
      (scan env.read (slowGid env.stackBlob) maxOffset startOffset = .error () →
        (findGidOffsetFull env startOffset maxOffset panicOnFault).1 = -1) := by
  unfold findGidOffsetFull
  by_cases h1 : slowGid env.stackBlob ≠ 0 ∧ env.gNil = false
  · rw [if_pos h1]
    cases hs : scan env.read (slowGid env.stackBlob) maxOffset startOffset with
    | ok r =>
      refine ⟨rfl, fun hc => ?_⟩
      exact absurd hc (by simp)
    | error e => exact ⟨rfl, fun _ => rfl⟩
  · rw [if_neg h1]
    exact ⟨rfl, fun _ => rfl⟩

theorem findGidOffset_faultSafe_witness :
    (findGidOffsetFull envC 0 8 true).2 = true ∧ (findGidOffsetFull envC 0 8 true).1 = -1 :=
  ⟨(findGidOffset_faultSafe envC 0 8 true).1,
   (findGidOffset_faultSafe envC 0 8 true).2 (by rw [scan]; norm_num [envC])⟩

theorem findGidOffset_range (env : GEnv) (startOffset maxOffset : Int) :
    findGidOffset env startOffset maxOffset = -1 ∨
      (∃ k : Nat, findGidOffset env startOffset maxOffset = startOffset + gidSize * k ∧
        findGidOffset env startOffset maxOffset < maxOffset) := by
  by_cases h1 : slowGid env.stackBlob ≠ 0 ∧ env.gNil = false
  · rw [findGidOffset_guard_pos env _ _ h1.1 h1.2]
    cases hs : scan env.read (slowGid env.stackBlob) maxOffset startOffset with
    | ok r =>
      have hr := scan_range env.read (slowGid env.stackBlob) maxOffset
        (maxOffset - startOffset).toNat startOffset r rfl hs
      rcases hr with h | ⟨k, hk, hkm⟩
      · left; exact h
      · right; exact ⟨k, hk, hkm⟩
    | error e => left; rfl
  · left
    apply findGidOffset_guard_neg
    rcases not_and_or.mp h1 with h | h
    · exact Or.inl (not_ne_iff.mp h)
    · exact Or.inr (by simpa using h)

theorem voterLoop_mem (env : GEnv) (probes : Int → List GEnv) :
    ∀ fuel : Nat, ∀ offset x, x ∈ voterLoop env probes fuel offset →
      offset ≤ x ∧ x < gSize ∧ ∃ k : Nat, x = offset + gidSize * k := by
  intro fuel
  induction fuel with
  | zero => intro offset x hx; simp [voterLoop] at hx
  | succ fuel ih =>
    intro offset x hx
    simp only [voterLoop] at hx
    by_cases ho : offset < gSize
    · rw [if_pos ho] at hx
      by_cases hneg : findGidOffset env offset gSize = -1
      · rw [if_pos hneg] at hx
        simp at hx
      · rw [if_neg hneg] at hx
        rcases findGidOffset_range env offset gSize with h | ⟨k, hk, hkm⟩
        · exact absurd h hneg
        have hx2 : x = findGidOffset env offset gSize ∨
            x ∈ voterLoop env probes fuel (findGidOffset env offset gSize + gidSize) := by
          by_cases hc : (checkGidOffset (probes (findGidOffset env offset gSize))
              (findGidOffset env offset gSize)).getD false = true
          · rw [if_pos hc] at hx
            exact List.mem_cons.mp hx
          · rw [if_neg hc] at hx
            exact Or.inr hx
        rcases hx2 with rfl | hx'
        · refine ⟨?_, hkm, k, hk⟩
          simp only [gidSize] at hk ⊢
          omega
        · obtain ⟨h1, h2, j, hj⟩ := ih (findGidOffset env offset gSize + gidSize) x hx'
          refine ⟨?_, h2, k + 1 + j, ?_⟩
          · simp only [gidSize] at hk h1 ⊢
            omega
          · rw [hj, hk]
            push_cast
            ring
    · rw [if_neg ho] at hx
      simp at hx

theorem voterLoop_nodup (env : GEnv) (probes : Int → List GEnv) :
    ∀ fuel : Nat, ∀ offset, (voterLoop env probes fuel offset).Nodup := by
  intro fuel
  induction fuel with
  | zero => intro offset; simp [voterLoop]
  | succ fuel ih =>
    intro offset
    simp only [voterLoop]
    by_cases ho : offset < gSize
    · rw [if_pos ho]
      by_cases hneg : findGidOffset env offset gSize = -1
      · rw [if_pos hneg]; simp
      · rw [if_neg hneg]
        by_cases hc : (checkGidOffset (probes (findGidOffset env offset gSize))
            (findGidOffset env offset gSize)).getD false = true
        · rw [if_pos hc]
          rw [List.nodup_cons]
          refine ⟨fun hmem => ?_, ih _⟩
          obtain ⟨h1, _, _⟩ := voterLoop_mem env probes fuel _ _ hmem
          simp only [gidSize] at h1
          omega
        · rw [if_neg hc]
          exact ih _
    · rw [if_neg ho]; simp

theorem voterCandidates_mem (v : Voter) (x : Int) (hx : x ∈ voterCandidates v) :
    0 ≤ x ∧ x < gSize ∧ gidSize ∣ x := by
  obtain ⟨h1, h2, k, hk⟩ := voterLoop_mem v.env v.probes voterFuel 0 x hx
  exact ⟨h1, h2, ⟨k, by omega⟩⟩

theorem voterCandidates_nodup (v : Voter) : (voterCandidates v).Nodup :=
  voterLoop_nodup v.env v.probes voterFuel 0

theorem sum_le_length (l : List Nat) (h : ∀ x ∈ l, x ≤ 1) : l.sum ≤ l.length := by
  induction l with
  | nil => simp
  | cons a t ih =>
    simp only [List.sum_cons, List.length_cons]
    have h1 := h a (by simp)
    have h2 := ih (fun x hx => h x (by simp [hx]))
    omega

theorem sum_eq_length_all_one (l : List Nat) (h : ∀ x ∈ l, x ≤ 1)
    (hs : l.sum = l.length) : ∀ x ∈ l, x = 1 := by
  induction l with
  | nil => simp
  | cons a t ih =>
    intro x hx
    simp only [List.sum_cons, List.length_cons] at hs
    have ha : a ≤ 1 := h a (by simp)
    have ht : t.sum ≤ t.length := sum_le_length t (fun y hy => h y (by simp [hy]))
    rcases List.mem_cons.mp hx with rfl | hx'
    · omega
    · exact ih (fun y hy => h y (by simp [hy])) (by omega) x hx'

theorem resolveOffset_eq (lists : List (List Int)) :
    (resolveOffset lists = -1 ∧
      ∀ o ∈ lists.flatten, lists.flatten.count o ≠ voterCount) ∨
    (resolveOffset lists ∈ lists.flatten ∧
      lists.flatten.count (resolveOffset lists) = voterCount) := by
  unfold resolveOffset resolveOffsetOrd
  cases hf : lists.flatten.dedup.find? (fun o => lists.flatten.count o == voterCount) with
  | none =>
    left
    refine ⟨rfl, fun o ho => ?_⟩
    have h1 := List.find?_eq_none.mp hf o (List.mem_dedup.mpr ho)
    simpa using h1
  | some o =>
    right
    have h1 := List.find?_some hf
    have h2 := List.mem_of_find?_eq_some hf
    exact ⟨List.mem_dedup.mp h2, by simpa using h1⟩

theorem countAll_mem_voters (vs : List Voter) (hlen : vs.length = voterCount) (o : Int)
    (hc : ((vs.map voterCandidates).flatten).count o = voterCount) :
    ∀ v ∈ vs, o ∈ voterCandidates v := by
  intro v hv
  have hle : ∀ n ∈ (vs.map voterCandidates).map (List.count o), n ≤ 1 := by
    intro n hn
    obtain ⟨l, hl, rfl⟩ := List.mem_map.mp hn
    obtain ⟨w, hw, rfl⟩ := List.mem_map.mp hl
    exact List.nodup_iff_count_le_one.mp (voterCandidates_nodup w) o
  have hsum : ((vs.map voterCandidates).map (List.count o)).sum = voterCount := by
    rw [← List.count_flatten]
    exact hc
  have hlen2 : ((vs.map voterCandidates).map (List.count o)).length = voterCount := by
    simp [hlen]
  have h1 := sum_eq_length_all_one _ hle (by rw [hsum, hlen2])
  have hmem : (voterCandidates v).count o ∈ (vs.map voterCandidates).map (List.count o) :=
    List.mem_map_of_mem _ (List.mem_map_of_mem _ hv)
  have h2 := h1 _ hmem
  exact List.count_pos_iff.mp (by omega)

/-- C1: getGidOffset returns a nonnegative offset only when all voterCount
voters included it in their validator-approved lists, and when no offset is
approved by all voters it returns -1, making FastGetGoIDAvailable false. -/
theorem getGidOffset_consensus (vs : List Voter) (hlen : vs.length = voterCount) :
    (∀ o : Int, 0 ≤ o → getGidOffset vs = o → ∀ v ∈ vs, o ∈ voterCandidates v)
    ∧ ((¬ ∃ o : Int, ∀ v ∈ vs, o ∈ voterCandidates v) →
        getGidOffset vs = -1 ∧ FastGetGoIDAvailable (getGidOffset vs) = false) := by
  constructor
  · intro o ho hgo
    rcases resolveOffset_eq (vs.map voterCandidates) with ⟨h1, _⟩ | ⟨hmem, hcnt⟩
    · unfold getGidOffset at hgo
      rw [h1] at hgo
      exfalso
      omega
    · unfold getGidOffset at hgo
      rw [hgo] at hcnt
      exact countAll_mem_voters vs hlen o hcnt
  · intro hnone
    have h1 : getGidOffset vs = -1 := by
      rcases resolveOffset_eq (vs.map voterCandidates) with ⟨h1, _⟩ | ⟨hmem, hcnt⟩
      · exact h1
      · exact absurd ⟨_, countAll_mem_voters vs hlen _ hcnt⟩ hnone
    refine ⟨h1, ?_⟩
    rw [h1]
    decide

theorem getGidOffset_consensus_witness :
    (List.replicate 10 voterB).length = voterCount ∧
      ((∀ o : Int, 0 ≤ o → getGidOffset (List.replicate 10 voterB) = o →
          ∀ v ∈ List.replicate 10 voterB, o ∈ voterCandidates v)
        ∧ ((¬ ∃ o : Int, ∀ v ∈ List.replicate 10 voterB, o ∈ voterCandidates v) →
            getGidOffset (List.replicate 10 voterB) = -1 ∧
              FastGetGoIDAvailable (getGidOffset (List.replicate 10 voterB)) = false)) :=
  ⟨rfl, getGidOffset_consensus (List.replicate 10 voterB) rfl⟩


theorem getGidOffset_range_aux (vs : List Voter) :
    getGidOffset vs = -1 ∨
      (0 ≤ getGidOffset vs ∧ getGidOffset vs < gSize ∧ gidSize ∣ getGidOffset vs) := by
  rcases resolveOffset_eq (vs.map voterCandidates) with ⟨h1, _⟩ | ⟨hmem, _⟩
  · left
    exact h1
  · right
    obtain ⟨l, hl, hol⟩ := List.mem_flatten.mp hmem
    obtain ⟨v, hv, rfl⟩ := List.mem_map.mp hl
    exact voterCandidates_mem v _ hol

/-- C10: every return value of getGidOffset is -1 or a multiple of gidSize
in the window [0, gSize), and whenever the fast path is available the
resolved offset is such a multiple strictly below gSize. -/
theorem getGidOffset_alignedRange (vs : List Voter) :
    (getGidOffset vs = -1 ∨
      (0 ≤ getGidOffset vs ∧ getGidOffset vs < gSize ∧ gidSize ∣ getGidOffset vs))
    ∧ (FastGetGoIDAvailable (getGidOffset vs) = true →
        0 ≤ getGidOffset vs ∧ getGidOffset vs < gSize ∧ gidSize ∣ getGidOffset vs) := by
  refine ⟨getGidOffset_range_aux vs, fun hf => ?_⟩
  rcases getGidOffset_range_aux vs with h | h
  · rw [h] at hf
    exact absurd hf (by decide)
  · exact h

theorem getGidOffset_alignedRange_witness :
    (getGidOffset (List.replicate 10 voterB) = -1 ∨
      (0 ≤ getGidOffset (List.replicate 10 voterB) ∧
        getGidOffset (List.replicate 10 voterB) < gSize ∧
        gidSize ∣ getGidOffset (List.replicate 10 voterB)))
    ∧ (FastGetGoIDAvailable (getGidOffset (List.replicate 10 voterB)) = true →
        0 ≤ getGidOffset (List.replicate 10 voterB) ∧
          getGidOffset (List.replicate 10 voterB) < gSize ∧
          gidSize ∣ getGidOffset (List.replicate 10 voterB)) :=
  getGidOffset_alignedRange (List.replicate 10 voterB)

/-- C7: the package state is written exactly once, at initialization, to -1
or to a nonnegative offset, and no later operation of the package writes to
it: every operation returns the state unchanged. -/
theorem gidOffset_frozen (vs : List Voter) (env : GEnv) (s : ProcState) :
    ((initState vs).gidOffset = -1 ∨ 0 ≤ (initState vs).gidOffset)
    ∧ (GetGoIDSt env s).2 = s ∧ (FastGetGoIDAvailableSt s).2 = s
    ∧ (fastGidSt env s).2 = s ∧ (slowGidSt env s).2 = s := by
  refine ⟨?_, rfl, rfl, rfl, rfl⟩
  rcases getGidOffset_range_aux vs with h | h
  · left
    exact h
  · right
    exact h.1

/-- C2: GetGoID takes the fast path value gidFromG of the caller's own g at
the resolved offset when that offset is nonnegative, otherwise it delegates
to slowGid, and in either case a value is produced (the slow path always
yields one; the fast path does whenever the validated offset is readable). -/
theorem GetGoID_spec (env : GEnv) (gidOffset : Int) :
    (0 ≤ gidOffset → GetGoID env gidOffset = gidFromG env gidOffset)
    ∧ (gidOffset < 0 → GetGoID env gidOffset = some (slowGid env.stackBlob))
    ∧ ((gidOffset < 0 ∨ (env.read gidOffset).isSome = true) →
        (GetGoID env gidOffset).isSome = true) := by
  refine ⟨fun h => ?_, fun h => ?_, fun h => ?_⟩
  · unfold GetGoID fastGid
    rw [if_pos (show FastGetGoIDAvailable gidOffset = true from decide_eq_true h)]
  · unfold GetGoID
    rw [if_neg]
    intro hc
    have := of_decide_eq_true hc
    omega
  · unfold GetGoID fastGid gidFromG
    by_cases hb : FastGetGoIDAvailable gidOffset = true
    · rw [if_pos hb]
      rcases h with h | h
      · have := of_decide_eq_true hb
        omega
      · exact h
    · rw [if_neg hb]
      rfl

theorem GetGoID_spec_witness :
    (GetGoID envA 16 = gidFromG envA 16 ∧ GetGoID envA 16 = some 7)
      ∧ (GetGoID envA (-1) = some (slowGid envA.stackBlob) ∧ GetGoID envA (-1) = some 7)
      ∧ (GetGoID envA 16).isSome = true :=
  ⟨⟨(GetGoID_spec envA 16).1 (by decide), by decide⟩,
   ⟨(GetGoID_spec envA (-1)).2.1 (by decide), by decide⟩,
   (GetGoID_spec envA 16).2.2 (Or.inr (by decide))⟩


/-- The slowGid parser never returns a nonzero value unless the text that
remains after trimming the header begins with a well-formed 64-bit decimal
token followed by a space at a positive index: slowGid either degrades to 0
or returns exactly the value that token parses to. Header absence by itself
does not force 0. -/
theorem slowGid_amended (blob : String) :
    slowGid blob = 0 ∨
      ∃ i : Nat, ∃ v : Int,
        (trimHeader blob.toList).findIdx? (fun c => c = ' ') = some i ∧ 0 < i ∧
        parseInt64 ((trimHeader blob.toList).take i) = some v ∧ slowGid blob = v := by
  have hunf : slowGid blob =
      match (trimHeader blob.toList).findIdx? (fun c => c = ' ') with
      | some i => if 0 < i then (parseInt64 ((trimHeader blob.toList).take i)).getD 0 else 0
      | none => 0 := rfl
  rw [hunf]
  cases hf : (trimHeader blob.toList).findIdx? (fun c => c = ' ') with
  | none =>
    left
    rfl
  | some i =>
    dsimp only
    by_cases hi : 0 < i
    · cases hp : parseInt64 ((trimHeader blob.toList).take i) with
      | none =>
        left
        rw [if_pos hi]
        rfl
      | some v =>
        right
        refine ⟨i, v, rfl, hi, ?_, ?_⟩
        · exact hp
        · rw [if_pos hi]
          rfl
    · left
      rw [if_neg hi]

theorem slowGid_headerAbsent_counterexample :
    ¬ List.IsInfix goroutineHeader.toList ("123 x".toList) ∧
      slowGid "123 x" = 123 ∧ slowGid "123 x" ≠ 0 := by
  refine ⟨by decide, by decide, by decide⟩

theorem voterLoop_fuel_stable (env : GEnv) (probes : Int → List GEnv) :
    ∀ fuel : Nat, ∀ offset : Int, (gSize - offset).toNat ≤ 8 * fuel →
      voterLoop env probes (fuel + 1) offset = voterLoop env probes fuel offset := by
  intro fuel
  induction fuel with
  | zero =>
    intro offset h
    simp only [voterLoop]
    rw [if_neg (by simp only [gSize] at h ⊢; omega)]
  | succ fuel ih =>
    intro offset h
    conv_lhs => rw [voterLoop]
    conv_rhs => rw [voterLoop]
    by_cases ho : offset < gSize
    · rw [if_pos ho, if_pos ho]
      by_cases hneg : findGidOffset env offset gSize = -1
      · rw [if_pos hneg, if_pos hneg]
      · rw [if_neg hneg, if_neg hneg]
        rcases findGidOffset_range env offset gSize with hr | ⟨k, hk, hkm⟩
        · exact absurd hr hneg
        have hrec : voterLoop env probes (fuel + 1) (findGidOffset env offset gSize + gidSize)
            = voterLoop env probes fuel (findGidOffset env offset gSize + gidSize) := by
          apply ih
          simp only [gSize, gidSize] at hk hkm h ⊢
          omega
        by_cases hc : (checkGidOffset (probes (findGidOffset env offset gSize))
            (findGidOffset env offset gSize)).getD false = true
        · rw [if_pos hc, if_pos hc, hrec]
        · rw [if_neg hc, if_neg hc, hrec]
    · rw [if_neg ho, if_neg ho]

theorem voterCandidates_fuel_stable (v : Voter) (extra : Nat) :
    voterLoop v.env v.probes (voterFuel + extra) 0 = voterCandidates v := by
  induction extra with
  | zero => rfl
  | succ extra ih =>
    rw [show voterFuel + (extra + 1) = voterFuel + extra + 1 by omega]
    rw [voterLoop_fuel_stable v.env v.probes (voterFuel + extra) 0
      (by simp only [gSize, voterFuel]; omega)]
    exact ih

theorem checkGidOffset_crash_iff (offset : Int) :
    ∀ probes : List GEnv, checkGidOffset probes offset = none ↔
      ∃ env ∈ probes, slowGid env.stackBlob ≠ 0 ∧ env.gNil = false ∧
        env.read offset = none := by
  intro probes
  induction probes with
  | nil => simp [checkGidOffset]
  | cons env rest ih =>
    rw [checkGidOffset]
    constructor
    · intro h
      cases hp : probeOutcome env offset with
      | none =>
        unfold probeOutcome at hp
        by_cases hg : (slowGid env.stackBlob != 0 && !env.gNil) = true
        · rw [if_pos hg] at hp
          simp only [Bool.and_eq_true, bne_iff_ne, Bool.not_eq_true'] at hg
          cases hr : env.read offset with
          | none => exact ⟨env, by simp, hg.1, hg.2, hr⟩
          | some v => rw [hr] at hp; cases hp
        · rw [if_neg hg] at hp
          cases hp
      | some b =>
        rw [hp] at h
        cases hrest : checkGidOffset rest offset with
        | none =>
          obtain ⟨e, he, h1, h2, h3⟩ := ih.mp hrest
          exact ⟨e, by simp [he], h1, h2, h3⟩
        | some bs => rw [hrest] at h; cases h
    · rintro ⟨e, he, h1, h2, h3⟩
      rcases List.mem_cons.mp he with rfl | he'
      · have hp : probeOutcome e offset = none := by
          unfold probeOutcome
          rw [if_pos (by simp [h1, h2]), h3]
        rw [hp]
      · have hrest : checkGidOffset rest offset = none := ih.mpr ⟨e, he', h1, h2, h3⟩
        rw [hrest]
        cases hpo : probeOutcome env offset <;> rfl

/-- C5: the code does not implement the claimed fault containment in the
validator. In a batch of `checkCount` probes whose first probe has a
healthy slow path (id 7) and a non-nil g but faults on the read at
candidate offset 16, the probe reaches the read, and the fault is a fatal
crash of the whole batch (`none`): `debug.SetPanicOnFault` is
per-goroutine and is never enabled in the probe goroutines, so the
`defer`/`recover` cannot catch the memory fault and `checkGidOffset`
never returns the `false` that the claim (and the spec's validator
design) promises. -/
theorem checkGidOffset_fault_crash :
    (envC :: List.replicate 9 envA).length = checkCount ∧
      slowGid envC.stackBlob ≠ 0 ∧ envC.gNil = false ∧ envC.read 16 = none ∧
      checkGidOffset (envC :: List.replicate 9 envA) 16 = none := by
  refine ⟨by decide, by decide, by decide, by decide, by decide⟩

theorem voterLoop_succ (env : GEnv) (probes : Int → List GEnv) (fuel : Nat) (offset : Int) :
    voterLoop env probes (fuel + 1) offset =
      if offset < gSize then
        if findGidOffset env offset gSize = -1 then []
        else if (checkGidOffset (probes (findGidOffset env offset gSize))
            (findGidOffset env offset gSize)).getD false then
          findGidOffset env offset gSize ::
            voterLoop env probes fuel (findGidOffset env offset gSize + gidSize)
        else voterLoop env probes fuel (findGidOffset env offset gSize + gidSize)
      else [] := rfl

theorem voterE_find0 : findGidOffset envE 0 gSize = 0 := by
  rw [findGidOffset_guard_pos envE 0 gSize (by decide) (by decide),
    scan_found envE.read (slowGid envE.stackBlob) gSize 0 0 (by decide) (by decide)
      (fun j hj => absurd hj (Nat.not_lt_zero j))]
  decide

theorem voterE_find8 : findGidOffset envE 8 gSize = 8 := by
  rw [findGidOffset_guard_pos envE 8 gSize (by decide) (by decide),
    scan_found envE.read (slowGid envE.stackBlob) gSize 0 8 (by decide) (by decide)
      (fun j hj => absurd hj (Nat.not_lt_zero j))]
  decide

theorem voterE_find16 : findGidOffset envE 16 gSize = -1 := by
  rw [findGidOffset_guard_pos envE 16 gSize (by decide) (by decide),
    scan_not_found envE.read (slowGid envE.stackBlob) gSize (gSize - 16).toNat 16 rfl ?_]
  intro k hk
  refine ⟨1, ?_, by decide⟩
  show (if (16 + gidSize * (k : Int) = 0 ∨ 16 + gidSize * (k : Int) = 8) then some 7
    else some 1) = some 1
  rw [if_neg]
  simp only [gidSize]
  omega

theorem voterE_candidates : voterCandidates voterE = [0, 8] := by
  show voterLoop envE voterE.probes (32 + 1) 0 = [0, 8]
  rw [voterLoop_succ envE voterE.probes 32 0, if_pos (by decide), voterE_find0,
    if_neg (by decide), if_pos (by decide), show (0 : Int) + gidSize = 8 by decide,
    show (32 : Nat) = 31 + 1 from rfl, voterLoop_succ envE voterE.probes 31 8,
    if_pos (by decide), voterE_find8, if_neg (by decide), if_pos (by decide),
    show (8 : Int) + gidSize = 16 by decide, show (31 : Nat) = 30 + 1 from rfl,
    voterLoop_succ envE voterE.probes 30 16, if_pos (by decide), voterE_find16,
    if_pos rfl]

theorem voterF_find0 : findGidOffset envF 0 gSize = 0 := by
  rw [findGidOffset_guard_pos envF 0 gSize (by decide) (by decide),
    scan_found envF.read (slowGid envF.stackBlob) gSize 0 0 (by decide) (by decide)
      (fun j hj => absurd hj (Nat.not_lt_zero j))]
  decide

theorem voterF_find8 : findGidOffset envF 8 gSize = -1 := by
  rw [findGidOffset_guard_pos envF 8 gSize (by decide) (by decide),
    scan_not_found envF.read (slowGid envF.stackBlob) gSize (gSize - 8).toNat 8 rfl ?_]
  intro k hk
  refine ⟨1, ?_, by decide⟩
  show (if 8 + gidSize * (k : Int) = 0 then some 7 else some 1) = some 1
  rw [if_neg]
  simp only [gidSize]
  omega

theorem voterF_candidates : voterCandidates voterF = [0] := by
  show voterLoop envF voterF.probes (32 + 1) 0 = [0]
  rw [voterLoop_succ envF voterF.probes 32 0, if_pos (by decide), voterF_find0,
    if_neg (by decide), if_pos (by decide), show (0 : Int) + gidSize = 8 by decide,
    show (32 : Nat) = 31 + 1 from rfl, voterLoop_succ envF voterF.probes 31 8,
    if_pos (by decide), voterF_find8, if_pos rfl]

/-- C8 counterexample: with ten voters that each approve both offset 0 and
offset 8 (a layout in which two fields of the control block hold the
goroutine id), both offsets carry a full tally, and the two map iteration
orders [0, 8] and [8, 0] — both admissible enumerations of the tally map's
keys, as the permutation conjuncts state — make the resolution return two
different offsets for identical voter behaviour. Two runs of getGidOffset
under the same binary and architecture can therefore disagree. -/
theorem getGidOffset_deterministic_counterexample :
    getGidOffsetOrd (List.replicate 10 voterE) [0, 8] = 0 ∧
      getGidOffsetOrd (List.replicate 10 voterE) [8, 0] = 8 ∧
      List.Perm [(0 : Int), 8]
        (((List.replicate 10 voterE).map voterCandidates).flatten.dedup) ∧
      List.Perm [(8 : Int), 0]
        (((List.replicate 10 voterE).map voterCandidates).flatten.dedup) := by
  have hm : (List.replicate 10 voterE).map voterCandidates = List.replicate 10 [0, 8] := by
    rw [List.map_replicate, voterE_candidates]
  refine ⟨?_, ?_, ?_, ?_⟩
  · unfold getGidOffsetOrd
    rw [hm]
    decide
  · unfold getGidOffsetOrd
    rw [hm]
    decide
  · rw [hm]
    decide
  · rw [hm]
    decide

/-- C8 (amended): resolution is a function of the voters' observable
candidate lists and of the runtime's map iteration order, and it is
order-independent exactly up to the choice among unanimously approved
offsets: over any two admissible iteration orders (permutations of the
tallied keys), two runs with the same candidate lists agree whenever at
most one offset carries a full tally — in particular they both report -1
when no offset is unanimous. -/
theorem getGidOffsetOrd_deterministic (vs : List Voter) (ord1 ord2 : List Int)
    (h1 : List.Perm ord1 ((vs.map voterCandidates).flatten.dedup))
    (h2 : List.Perm ord2 ((vs.map voterCandidates).flatten.dedup))
    (huniq : ∀ a b : Int, (vs.map voterCandidates).flatten.count a = voterCount →
      (vs.map voterCandidates).flatten.count b = voterCount → a = b) :
    getGidOffsetOrd vs ord1 = getGidOffsetOrd vs ord2 := by
  unfold getGidOffsetOrd resolveOffsetOrd
  cases hf1 : ord1.find? (fun o => (vs.map voterCandidates).flatten.count o == voterCount) with
  | none =>
    cases hf2 : ord2.find? (fun o => (vs.map voterCandidates).flatten.count o == voterCount) with
    | none => rfl
    | some b =>
      exfalso
      have hb := List.find?_some hf2
      have hbm := List.mem_of_find?_eq_some hf2
      have hbo : b ∈ ord1 := h1.mem_iff.mpr (h2.mem_iff.mp hbm)
      exact List.find?_eq_none.mp hf1 b hbo hb
  | some a =>
    have ha := List.find?_some hf1
    have ham := List.mem_of_find?_eq_some hf1
    cases hf2 : ord2.find? (fun o => (vs.map voterCandidates).flatten.count o == voterCount) with
    | none =>
      exfalso
      have hao : a ∈ ord2 := h2.mem_iff.mpr (h1.mem_iff.mp ham)
      exact List.find?_eq_none.mp hf2 a hao ha
    | some b =>
      have hb := List.find?_some hf2
      exact huniq a b (by simpa using ha) (by simpa using hb)

theorem getGidOffsetOrd_deterministic_witness :
    getGidOffsetOrd (voterF :: List.replicate 9 voterE) [0, 8] =
      getGidOffsetOrd (voterF :: List.replicate 9 voterE) [8, 0] := by
  have hm : (voterF :: List.replicate 9 voterE).map voterCandidates =
      [0] :: List.replicate 9 [0, 8] := by
    rw [List.map_cons, List.map_replicate, voterF_candidates, voterE_candidates]
  apply getGidOffsetOrd_deterministic (voterF :: List.replicate 9 voterE) [0, 8] [8, 0]
  · rw [hm]
    decide
  · rw [hm]
    decide
  · intro a b ha hb
    rw [hm] at ha hb
    have key : ∀ x : Int,
        (([0] :: List.replicate 9 [0, 8] : List (List Int)).flatten).count x = voterCount →
        x = 0 := by
      intro x hx
      rcases eq_or_ne x 0 with rfl | hx0
      · rfl
      rcases eq_or_ne x 8 with rfl | hx8
      · exact absurd hx (by decide)
      · rw [List.count_eq_zero_of_not_mem] at hx
        · exact absurd hx (by decide)
        · intro hmem
          have := List.mem_flatten.mp hmem
          obtain ⟨l, hl, hxl⟩ := this
          rcases List.mem_cons.mp hl with rfl | hl'
          · simp at hxl
            exact hx0 hxl
          · rw [List.eq_of_mem_replicate hl'] at hxl
            rcases List.mem_cons.mp hxl with rfl | hxl'
            · exact hx0 rfl
            · simp at hxl'
              exact hx8 hxl'
    rw [key a ha, key b hb]
